import Mathlib

/-!
Shallow embedding of the clip synchronization engine of the
`camera-on-drive` repository (`src/camera-on-drive.ts`), together with the
observable behaviour of its two collaborators that the engine drives:
the Remote Event Source (`src/bosch-api.ts`, class `BoschApi`) and the
Remote Object Store (`src/google-drive-api.ts`, class `GoogleDriveApi`).

Modelling conventions:
* JavaScript `Date` parsing of event timestamp strings
  (`getTimestampFromEventTimestamp` in `src/bosch-api.ts`) is abstracted
  as a parameter `parseTs : String → Int`; every ordering statement is
  relative to it.
* JavaScript `Set<string>` values (the `videosOnDrive` snapshot) are
  modelled as duplicate-free `List String` in insertion order: `add`
  appends when absent, `delete` erases the element.
* `async` functions returning promises become pure functions; promise
  rejection becomes explicit control flow; remote calls that can succeed
  or fail are driven by boolean oracles bundled in `Env`.
* The unbounded `while` loop of `ensureThatTheDriveHasEnoughSpace` is
  modelled with explicit fuel; `none` means the loop did not exit within
  the given fuel (in the source it would keep polling).
-/

namespace CameraOnDrive

/-- `EventType` enumeration from `src/bosch-api.ts`. -/
inductive EventType where
  | TROUBLE_CONNECT
  | MOVEMENT
  | TROUBLE_DISCONNECT
  | TROUBLE_RECORDING_OFF
  | TROUBLE_RECORDING_ON
  | AUDIO_ALARM
deriving DecidableEq, Repr

/-- `EventVideoClipUploadStatus` enumeration from `src/bosch-api.ts`. -/
inductive EventVideoClipUploadStatus where
  | Unknown
  | Local
  | Pending
  | Done
  | Unavailable
  | Permanently_unavailable
deriving DecidableEq, Repr

/-- The fields of `CameraEvent` (`src/bosch-api.ts`) that the engine reads.
The remaining fields (`videoInputId`, `title`, `isRead`, the URLs and the
progress percentage) are never consulted by `camera-on-drive.ts`. -/
structure CameraEvent where
  id : String
  eventType : EventType
  timestamp : String
  isFavorite : Bool
  videoClipUploadStatus : EventVideoClipUploadStatus
deriving DecidableEq, Repr

/-- Constant `maxNumberOfFavoriteEvent` of class `CameraOnDrive`. -/
def maxNumberOfFavoriteEvent : Nat := 25

/-- Constant `maxNumberOfNotFavoriteEvent` of class `CameraOnDrive`. -/
def maxNumberOfNotFavoriteEvent : Nat := 200

/-- Constant `maxNumberOfManualRequest` of class `CameraOnDrive`. -/
def maxNumberOfManualRequest : Nat := 3

/-- The Event Classifier, `getEventsWithClipNotYetOnDrive` of
`src/camera-on-drive.ts`: keep movement and audio-alarm events, drop the
statuses `Permanently_unavailable` and `Unknown`, drop events whose
`<timestamp>.mp4` is already in the drive snapshot, and sort ascending by
parsed timestamp.  The JavaScript `Array.prototype.sort` with the numeric
comparator `eventsByAscTimestamp` is a stable ascending sort, modelled here
by insertion sort; the claims depend only on membership and ordering. -/
def getEventsWithClipNotYetOnDrive (parseTs : String → Int)
    (events : List CameraEvent) (videosOnDrive : List String) : List CameraEvent :=
  List.insertionSort (fun a b => parseTs a.timestamp ≤ parseTs b.timestamp)
    (((events.filter
      (fun e => e.eventType == EventType.MOVEMENT || e.eventType == EventType.AUDIO_ALARM)).filter
      (fun e => !(e.videoClipUploadStatus == EventVideoClipUploadStatus.Permanently_unavailable
          || e.videoClipUploadStatus == EventVideoClipUploadStatus.Unknown))).filter
      (fun e => !(videosOnDrive.contains (e.timestamp ++ ".mp4"))))

/-- `splitCameraEventByClipStatus` of `src/camera-on-drive.ts`: partition the
classifier output, preserving order, into the buckets
(`clipsReadyToBeUploadToDrive`, `clipsToBeRequest`, `clipsPending`).
The source pushes into three arrays inside a `forEach` switch; this is the
same computation by structural recursion. -/
def splitCameraEventByClipStatus :
    List CameraEvent → List CameraEvent × List CameraEvent × List CameraEvent
  | [] => ([], [], [])
  | e :: rest =>
    let buckets := splitCameraEventByClipStatus rest
    match e.videoClipUploadStatus with
    | .Done => (e :: buckets.1, buckets.2.1, buckets.2.2)
    | .Local => (buckets.1, e :: buckets.2.1, buckets.2.2)
    | .Unavailable => (buckets.1, e :: buckets.2.1, buckets.2.2)
    | .Pending => (buckets.1, buckets.2.1, e :: buckets.2.2)
    | _ => buckets

/-- `canClipsBeUpload` of `src/camera-on-drive.ts`. -/
def canClipsBeUpload (clipsReadyToBeUploadToDrive : List CameraEvent) : Bool :=
  decide (0 < clipsReadyToBeUploadToDrive.length)

/-- `canClipsBeRequest` of `src/camera-on-drive.ts`. -/
def canClipsBeRequest (clipsToBeRequest clipsPending : List CameraEvent) : Bool :=
  decide (0 < clipsToBeRequest.length) && decide (clipsPending.length < maxNumberOfManualRequest)

/-- `shouldClipBeSetAsFavorite` of `src/camera-on-drive.ts`. -/
def shouldClipBeSetAsFavorite (eventsWithClipNotYetOnDrive : List CameraEvent) : Bool :=
  decide ((eventsWithClipNotYetOnDrive.filter (fun e => e.isFavorite)).length
      < maxNumberOfFavoriteEvent)
    && decide (maxNumberOfNotFavoriteEvent
      ≤ (eventsWithClipNotYetOnDrive.filter (fun e => !e.isFavorite)).length)

/-- The single sub-action a tick commits to in `handleClipsNotYetOnDrive`:
run the Archiver on the ready bucket, issue one export request, promote one
favorite, hit the unreachable `find` miss of
`setOldestNonFavoriteEventAsFavorite`, or fall through to the logging
branch. -/
inductive TickAction where
  | archive (ready : List CameraEvent)
  | request (event : CameraEvent)
  | favorite (event : CameraEvent)
  | favoriteNone
  | backoff
deriving DecidableEq, Repr

/-- The decision chain of `handleClipsNotYetOnDrive`
(`src/camera-on-drive.ts`, lines 39-57): archive if the ready bucket is
non-empty, else request the last (most recent) requestable clip when below
the manual-request cap, else promote the first non-favorite event when the
retention-guard condition holds, else back off.  The `backoff` answer in
the request branch is unreachable: the guard guarantees the bucket is
non-empty. -/
def handleClipsAction (eventsWithClipNotYetOnDrive : List CameraEvent) : TickAction :=
  let buckets := splitCameraEventByClipStatus eventsWithClipNotYetOnDrive
  if canClipsBeUpload buckets.1 then
    TickAction.archive buckets.1
  else if canClipsBeRequest buckets.2.1 buckets.2.2 then
    match buckets.2.1.getLast? with
    | some e => TickAction.request e
    | none => TickAction.backoff
  else if shouldClipBeSetAsFavorite eventsWithClipNotYetOnDrive then
    match eventsWithClipNotYetOnDrive.find? (fun e => !e.isFavorite) with
    | some e => TickAction.favorite e
    | none => TickAction.favoriteNone
  else
    TickAction.backoff

/-- One stored object of the Remote Object Store: its name and its size in
bytes. -/
structure DriveFile where
  name : String
  size : Nat
deriving DecidableEq, Repr

/-- Remote Object Store model (`GoogleDriveApi` of `src/google-drive-api.ts`):
the stored files plus the account quota in bytes.  `getAvailableSpace`
reports `storageQuota.limit - storageQuota.usage`, modelled as
`quota - sum of stored sizes`. -/
structure DriveStore where
  files : List DriveFile
  quota : Int
deriving DecidableEq, Repr

/-- Bytes used on the drive. -/
def usedSpace (d : DriveStore) : Int :=
  ((d.files.map (fun f => f.size)).sum : Nat)

/-- `getAvailableSpace` of `src/google-drive-api.ts`. -/
def getAvailableSpace (d : DriveStore) : Int :=
  d.quota - usedSpace d

/-- `isEnoughSpaceInDriveForFile` of `src/camera-on-drive.ts` (lines 221-232):
there is enough space iff the available space minus the 10 MB safety margin
is not below the local file's size. -/
def isEnoughSpaceInDriveForFile (fileSize : Nat) (d : DriveStore) : Bool :=
  !(decide (getAvailableSpace d - 10000000 < (fileSize : Int)))

/-- Effect of a successful `googleApi.deleteVideo(name)` on the store: the
first stored file with that name disappears. -/
def deleteVideoEffect (d : DriveStore) (name : String) : DriveStore :=
  { d with files := d.files.eraseP (fun f => f.name == name) }

/-- The loop body accumulator of `getOldestVideoName`
(`src/camera-on-drive.ts`, lines 205-219): keep the current candidate
unless the next video is strictly older. -/
def getOldestStep (parseTs : String → Int) (acc : Option String) (video : String) :
    Option String :=
  match acc with
  | none => some video
  | some oldest => if parseTs oldest > parseTs video then some video else some oldest

/-- `getOldestVideoName` of `src/camera-on-drive.ts`: fold of
`getOldestStep` over the snapshot in iteration order. -/
def getOldestVideoName (parseTs : String → Int) (videosOnDrive : List String) :
    Option String :=
  videosOnDrive.foldl (getOldestStep parseTs) none

/-- One mutating call issued against one of the two remote services.
Reads (`getEvents`, `listAllFilesName`, `getAvailableSpace`,
`downloadVideo`) are not recorded. -/
inductive RemoteCall where
  | uploadObject (name : String)
  | deleteObject (name : String)
  | requestClip (id : String)
  | deleteEvent (id : String)
  | setFavorite (id : String) (isFavorite : Bool)
deriving DecidableEq, Repr

/-- `ensureThatTheDriveHasEnoughSpace` of `src/camera-on-drive.ts`
(lines 191-203), with explicit fuel for the unbounded `while` loop.
While there is not enough space: find the oldest video of the snapshot;
if one exists, issue `deleteVideo` (driven by the oracle `delOk`) and
remove it from the snapshot only when the deletion reports success.
Returns the store, the snapshot and the issued `deleteObject` calls on
exit, or `none` when the fuel runs out before the space condition holds. -/
def ensureThatTheDriveHasEnoughSpace (parseTs : String → Int) (delOk : String → Bool)
    (fileSize : Nat) :
    Nat → DriveStore → List String → Option (DriveStore × List String × List RemoteCall)
  | 0, _, _ => none
  | fuel + 1, d, videosOnDrive =>
    if isEnoughSpaceInDriveForFile fileSize d then
      some (d, videosOnDrive, [])
    else
      match getOldestVideoName parseTs videosOnDrive with
      | none => ensureThatTheDriveHasEnoughSpace parseTs delOk fileSize fuel d videosOnDrive
      | some oldestVideo =>
        Option.map (fun r => (r.1, r.2.1, RemoteCall.deleteObject oldestVideo :: r.2.2))
          (if delOk oldestVideo then
            ensureThatTheDriveHasEnoughSpace parseTs delOk fileSize fuel
              (deleteVideoEffect d oldestVideo) (videosOnDrive.erase oldestVideo)
          else
            ensureThatTheDriveHasEnoughSpace parseTs delOk fileSize fuel d videosOnDrive)

/-- Success oracles and sizes for the fallible remote calls of one tick:
`download e` is the outcome of `boschApi.downloadVideo`, `upload e` the
outcome of `googleApi.uploadVideo`, `delVideo name` the outcome of
`googleApi.deleteVideo`, and `clipSize e` the `statSync` size of the
downloaded local file.  `deleteEvent`, `requestClipEvents` and
`setEventFavoriteStatus` are modelled as succeeding. -/
structure Env where
  download : CameraEvent → Bool
  upload : CameraEvent → Bool
  delVideo : String → Bool
  clipSize : CameraEvent → Nat

/-- JavaScript `Set.add` on the insertion-ordered snapshot list. -/
def setAdd (s : List String) (a : String) : List String :=
  if s.contains a then s else s ++ [a]

/-- State threaded through `uploadingAllReadyClipsFromBoschToDrive`: the
Remote Event Source contents, the Remote Object Store, the `videosOnDrive`
snapshot, the `success` and `failure` counters, and the mutating calls
issued so far. -/
structure ArchSt where
  events : List CameraEvent
  drive : DriveStore
  videosOnDrive : List String
  success : Nat
  failure : Nat
  calls : List RemoteCall
deriving DecidableEq, Repr

/-- One iteration of the `for` loop of `uploadingAllReadyClipsFromBoschToDrive`
(`src/camera-on-drive.ts`, lines 107-119).  A failed download rejects the
promise chain, so only the failure counter moves.  After a successful
download the chain continues unconditionally — `uploadingLocalClipToDrive`
catches every error and returns a boolean that the caller ignores — so the
eviction loop runs, `uploadVideo` is issued (the object lands only when the
upload oracle says so), and then the success arm runs: the success counter
is incremented, `<timestamp>.mp4` is added to the snapshot, and
`deleteEvent` removes the event from the Remote Event Source. -/
def uploadOneReadyClip (parseTs : String → Int) (env : Env) (fuel : Nat)
    (st : ArchSt) (event : CameraEvent) : Option ArchSt :=
  if env.download event then
    match ensureThatTheDriveHasEnoughSpace parseTs env.delVideo (env.clipSize event)
        fuel st.drive st.videosOnDrive with
    | none => none
    | some (d, vs, evictCalls) =>
      let name := event.timestamp ++ ".mp4"
      let d' :=
        if env.upload event then { d with files := d.files ++ [⟨name, env.clipSize event⟩] }
        else d
      some { events := st.events.filter (fun x => !(x.id == event.id)),
             drive := d',
             videosOnDrive := setAdd vs name,
             success := st.success + 1,
             failure := st.failure,
             calls := st.calls ++ evictCalls
               ++ [RemoteCall.uploadObject name, RemoteCall.deleteEvent event.id] }
  else
    some { st with failure := st.failure + 1 }

/-- `uploadingAllReadyClipsFromBoschToDrive` of `src/camera-on-drive.ts`
(lines 103-122): process the ready bucket sequentially, in order. -/
def uploadingAllReadyClipsFromBoschToDrive (parseTs : String → Int) (env : Env)
    (fuel : Nat) : List CameraEvent → ArchSt → Option ArchSt
  | [], st => some st
  | e :: rest, st =>
    match uploadOneReadyClip parseTs env fuel st e with
    | none => none
    | some st' => uploadingAllReadyClipsFromBoschToDrive parseTs env fuel rest st'

/-- The remote world as the engine sees it: the Remote Event Source's event
list and the Remote Object Store. -/
structure Remote where
  events : List CameraEvent
  drive : DriveStore
deriving DecidableEq, Repr

/-- Modelled from the spec: effect of `requestClipEvents(id)` on the Remote
Event Source.  The spec's clip status state machine (`{Local, Unavailable}
→ (on export request) Pending`) is owned by the remote service, whose code
is outside this repository; the matching events move to `Pending`. -/
def requestClipEffect (events : List CameraEvent) (id : String) : List CameraEvent :=
  events.map (fun x =>
    if x.id == id then { x with videoClipUploadStatus := EventVideoClipUploadStatus.Pending }
    else x)

/-- Modelled from the spec: effect of `setEventFavoriteStatus(id, true)` on
the Remote Event Source — the matching events become favorites. -/
def setFavoriteEffect (events : List CameraEvent) (id : String) : List CameraEvent :=
  events.map (fun x => if x.id == id then { x with isFavorite := true } else x)

/-- Effect of `deleteEvent(id)` on the Remote Event Source. -/
def deleteEventEffect (events : List CameraEvent) (id : String) : List CameraEvent :=
  events.filter (fun x => !(x.id == id))

/-- Result of one tick: the mutating remote calls it issued, the remote
world afterwards, and the `videosOnDrive` snapshot it hands to the next
tick. -/
structure TickResult where
  calls : List RemoteCall
  remote : Remote
  videosOnDrive : List String
deriving DecidableEq, Repr

/-- One tick of `mainLoop` plus `handleClipsNotYetOnDrive`
(`src/camera-on-drive.ts`, lines 29-57), without the advisory audit write.
When the classifier output is empty the loop re-lists the snapshot from
the store and mutates nothing; otherwise exactly one of archive, request,
favorite or back-off runs.  `none` means the archiver's eviction loop did
not exit within the fuel. -/
def tickRun (parseTs : String → Int) (env : Env) (fuel : Nat)
    (remote : Remote) (videosOnDrive : List String) : Option TickResult :=
  let notYet := getEventsWithClipNotYetOnDrive parseTs remote.events videosOnDrive
  if notYet.isEmpty then
    some ⟨[], remote, remote.drive.files.map (fun f => f.name)⟩
  else
    match handleClipsAction notYet with
    | TickAction.archive ready =>
      match uploadingAllReadyClipsFromBoschToDrive parseTs env fuel ready
          ⟨remote.events, remote.drive, videosOnDrive, 0, 0, []⟩ with
      | none => none
      | some st => some ⟨st.calls, ⟨st.events, st.drive⟩, st.videosOnDrive⟩
    | TickAction.request e =>
      some ⟨[RemoteCall.requestClip e.id],
        ⟨requestClipEffect remote.events e.id, remote.drive⟩, videosOnDrive⟩
    | TickAction.favorite e =>
      some ⟨[RemoteCall.setFavorite e.id true],
        ⟨setFavoriteEffect remote.events e.id, remote.drive⟩, videosOnDrive⟩
    | TickAction.favoriteNone =>
      some ⟨[], remote, videosOnDrive⟩
    | TickAction.backoff =>
      some ⟨[], remote, videosOnDrive⟩

/-! ### Helper lemmas about the classifier and the buckets -/

/-- `List.contains` agrees with membership on `String` lists. -/
theorem contains_eq_true_iff (l : List String) (a : String) :
    l.contains a = true ↔ a ∈ l :=
  List.elem_iff

/-- `List.contains` is `false` exactly on non-members. -/
theorem contains_eq_false_iff (l : List String) (a : String) :
    l.contains a = false ↔ ¬ a ∈ l := by
  rw [← Bool.not_eq_true, not_iff_not]
  exact contains_eq_true_iff l a

/-- Membership in the classifier output is exactly the three filter
conditions. -/
theorem mem_getEventsWithClipNotYetOnDrive (parseTs : String → Int)
    (events : List CameraEvent) (videosOnDrive : List String) (e : CameraEvent) :
    e ∈ getEventsWithClipNotYetOnDrive parseTs events videosOnDrive ↔
      e ∈ events
        ∧ (e.eventType = EventType.MOVEMENT ∨ e.eventType = EventType.AUDIO_ALARM)
        ∧ e.videoClipUploadStatus ≠ EventVideoClipUploadStatus.Unknown
        ∧ e.videoClipUploadStatus ≠ EventVideoClipUploadStatus.Permanently_unavailable
        ∧ ¬ (e.timestamp ++ ".mp4") ∈ videosOnDrive := by
  unfold getEventsWithClipNotYetOnDrive
  rw [List.mem_insertionSort, List.mem_filter, List.mem_filter, List.mem_filter,
    Bool.not_eq_true', Bool.not_eq_true', contains_eq_false_iff]
  simp only [Bool.or_eq_true, beq_iff_eq, Bool.or_eq_false_iff, beq_eq_false_iff_ne, ne_eq,
    Bool.not_eq_true']
  constructor
  · rintro ⟨⟨⟨he, hty⟩, hp, hu⟩, hv⟩
    exact ⟨he, hty, hu, hp, hv⟩
  · rintro ⟨he, hty, hu, hp, hv⟩
    exact ⟨⟨⟨he, hty⟩, hp, hu⟩, hv⟩

/-- The classifier output is sorted by non-decreasing parsed timestamp. -/
theorem sorted_getEventsWithClipNotYetOnDrive (parseTs : String → Int)
    (events : List CameraEvent) (videosOnDrive : List String) :
    (getEventsWithClipNotYetOnDrive parseTs events videosOnDrive).Pairwise
      (fun a b => parseTs a.timestamp ≤ parseTs b.timestamp) := by
  haveI : IsTotal CameraEvent (fun a b => parseTs a.timestamp ≤ parseTs b.timestamp) :=
    ⟨fun a b => Int.le_total _ _⟩
  haveI : IsTrans CameraEvent (fun a b => parseTs a.timestamp ≤ parseTs b.timestamp) :=
    ⟨fun _ _ _ hab hbc => le_trans hab hbc⟩
  exact List.sorted_insertionSort _ _

/-- The classifier only looks at the snapshot through membership: two
snapshots with the same members classify identically. -/
theorem getEventsWithClipNotYetOnDrive_congr (parseTs : String → Int)
    (events : List CameraEvent) (v1 v2 : List String)
    (h : ∀ n, n ∈ v1 ↔ n ∈ v2) :
    getEventsWithClipNotYetOnDrive parseTs events v1 =
      getEventsWithClipNotYetOnDrive parseTs events v2 := by
  unfold getEventsWithClipNotYetOnDrive
  congr 1
  apply List.filter_congr
  intro x _
  have : v1.contains (x.timestamp ++ ".mp4") = v2.contains (x.timestamp ++ ".mp4") := by
    rw [Bool.eq_iff_iff, contains_eq_true_iff, contains_eq_true_iff]
    exact h (x.timestamp ++ ".mp4")
  rw [this]

/-- The three buckets are the order-preserving filters of the input by
status. -/
theorem splitCameraEventByClipStatus_eq_filters (l : List CameraEvent) :
    splitCameraEventByClipStatus l =
      (l.filter (fun e => e.videoClipUploadStatus == EventVideoClipUploadStatus.Done),
       l.filter (fun e => e.videoClipUploadStatus == EventVideoClipUploadStatus.Local
         || e.videoClipUploadStatus == EventVideoClipUploadStatus.Unavailable),
       l.filter (fun e => e.videoClipUploadStatus == EventVideoClipUploadStatus.Pending)) := by
  induction l with
  | nil => rfl
  | cons e rest ih =>
    cases h : e.videoClipUploadStatus <;>
      simp_all [splitCameraEventByClipStatus, List.filter_cons, h]

/-- In a `Pairwise` ordered list, the last element is above every element. -/
theorem pairwise_rel_getLast {α : Type} (r : α → α → Prop) :
    ∀ (l : List α), l.Pairwise r → ∀ m, l.getLast? = some m →
      ∀ x ∈ l, r x m ∨ x = m
  | [], _, m, hm => by simp at hm
  | [a], _, m, hm => by
    simp only [List.getLast?_singleton, Option.some.injEq] at hm
    intro x hx
    simp only [List.mem_singleton] at hx
    exact Or.inr (hx.trans hm)
  | a :: b :: t, hp, m, hm => by
    rw [List.getLast?_cons_cons] at hm
    intro x hx
    rcases List.mem_cons.mp hx with rfl | hx'
    · exact Or.inl ((List.pairwise_cons.mp hp).1 m (List.mem_of_getLast?_eq_some hm))
    · exact pairwise_rel_getLast r (b :: t) (List.pairwise_cons.mp hp).2 m hm x hx'

/-- In a `Pairwise` ordered list, `find?` returns an element below every
other element satisfying the predicate. -/
theorem pairwise_rel_find {α : Type} (r : α → α → Prop) (p : α → Bool) :
    ∀ (l : List α), l.Pairwise r → ∀ e, l.find? p = some e →
      ∀ x ∈ l, p x = true → r e x ∨ e = x
  | [], _, e, he => by simp at he
  | a :: t, hp, e, he => by
    intro x hx hpx
    rcases List.pairwise_cons.mp hp with ⟨ha, ht⟩
    by_cases hpa : p a = true
    · rw [List.find?_cons_of_pos _ hpa] at he
      cases he
      rcases List.mem_cons.mp hx with rfl | hx'
      · exact Or.inr rfl
      · exact Or.inl (ha x hx')
    · rw [List.find?_cons_of_neg _ hpa] at he
      rcases List.mem_cons.mp hx with rfl | hx'
      · exact absurd hpx hpa
      · exact pairwise_rel_find r p t ht e he x hx' hpx

/-- When the ready bucket is non-empty the tick commits to the Archiver. -/
theorem handleClipsAction_eq_archive (l : List CameraEvent)
    (h : (splitCameraEventByClipStatus l).1 ≠ []) :
    handleClipsAction l = TickAction.archive (splitCameraEventByClipStatus l).1 := by
  have hb : canClipsBeUpload (splitCameraEventByClipStatus l).1 = true := by
    simp [canClipsBeUpload, List.length_pos, h]
  simp only [handleClipsAction, hb, if_true]

/-- Inversion of the request branch: a request is issued only with an empty
ready bucket, an admitted slot, and the last requestable event. -/
theorem handleClipsAction_request_inv (l : List CameraEvent) (e : CameraEvent)
    (h : handleClipsAction l = TickAction.request e) :
    (splitCameraEventByClipStatus l).1 = []
      ∧ canClipsBeRequest (splitCameraEventByClipStatus l).2.1
          (splitCameraEventByClipStatus l).2.2 = true
      ∧ (splitCameraEventByClipStatus l).2.1.getLast? = some e := by
  simp only [handleClipsAction] at h
  split at h
  · exact absurd h (by simp)
  · rename_i h1
    split at h
    · rename_i h2
      split at h
      · rename_i he
        cases h
        refine ⟨?_, h2, he⟩
        have := Bool.not_eq_true _ ▸ h1
        simp only [canClipsBeUpload, decide_eq_false_iff_not, Nat.not_lt,
          Nat.le_zero] at this
        exact List.length_eq_zero.mp this
      · exact absurd h (by simp)
    · split at h
      · split at h
        · exact absurd h (by simp)
        · exact absurd h (by simp)
      · exact absurd h (by simp)

/-- Inversion of the favorite branch: promotion happens only with an empty
ready bucket, no admitted request, the retention-guard condition true, and
the first non-favorite event of the working set. -/
theorem handleClipsAction_favorite_inv (l : List CameraEvent) (e : CameraEvent)
    (h : handleClipsAction l = TickAction.favorite e) :
    (splitCameraEventByClipStatus l).1 = []
      ∧ canClipsBeRequest (splitCameraEventByClipStatus l).2.1
          (splitCameraEventByClipStatus l).2.2 = false
      ∧ shouldClipBeSetAsFavorite l = true
      ∧ l.find? (fun x => !x.isFavorite) = some e := by
  simp only [handleClipsAction] at h
  split at h
  · exact absurd h (by simp)
  · rename_i h1
    split at h
    · split at h
      · exact absurd h (by simp)
      · exact absurd h (by simp)
    · rename_i h2
      split at h
      · rename_i h3
        split at h
        · rename_i he
          cases h
          refine ⟨?_, Bool.not_eq_true _ ▸ h2, h3, he⟩
          have := Bool.not_eq_true _ ▸ h1
          simp only [canClipsBeUpload, decide_eq_false_iff_not, Nat.not_lt,
            Nat.le_zero] at this
          exact List.length_eq_zero.mp this
        · exact absurd h (by simp)
      · exact absurd h (by simp)

/-- With an empty ready bucket, an admitted slot and a non-empty requestable
bucket, the tick issues the request for the last requestable event. -/
theorem handleClipsAction_eq_request (l : List CameraEvent)
    (h1 : (splitCameraEventByClipStatus l).1 = [])
    (h2 : (splitCameraEventByClipStatus l).2.1 ≠ [])
    (h3 : (splitCameraEventByClipStatus l).2.2.length < maxNumberOfManualRequest) :
    ∃ e, handleClipsAction l = TickAction.request e
      ∧ (splitCameraEventByClipStatus l).2.1.getLast? = some e := by
  have hb : canClipsBeUpload (splitCameraEventByClipStatus l).1 = false := by
    simp [canClipsBeUpload, h1]
  have hr : canClipsBeRequest (splitCameraEventByClipStatus l).2.1
      (splitCameraEventByClipStatus l).2.2 = true := by
    simp [canClipsBeRequest, List.length_pos, h2, h3]
  obtain ⟨e, he⟩ := Option.isSome_iff_exists.mp
    (List.getLast?_isSome.mpr h2)
  refine ⟨e, ?_, he⟩
  simp only [handleClipsAction, hb, Bool.false_eq_true, if_false, hr, if_true, he]

/-- Claim C4: the Event Classifier returns exactly the movement and
audio-alarm events whose status is neither `Unknown` nor
`Permanently_unavailable` and whose `<timestamp>.mp4` is not in the
snapshot, ordered by non-decreasing parsed timestamp. -/
theorem classifier_exact_and_sorted (parseTs : String → Int)
    (events : List CameraEvent) (videosOnDrive : List String) :
    (∀ e, e ∈ getEventsWithClipNotYetOnDrive parseTs events videosOnDrive ↔
      e ∈ events
        ∧ (e.eventType = EventType.MOVEMENT ∨ e.eventType = EventType.AUDIO_ALARM)
        ∧ e.videoClipUploadStatus ≠ EventVideoClipUploadStatus.Unknown
        ∧ e.videoClipUploadStatus ≠ EventVideoClipUploadStatus.Permanently_unavailable
        ∧ ¬ (e.timestamp ++ ".mp4") ∈ videosOnDrive)
    ∧ (getEventsWithClipNotYetOnDrive parseTs events videosOnDrive).Pairwise
        (fun a b => parseTs a.timestamp ≤ parseTs b.timestamp) :=
  ⟨fun e => mem_getEventsWithClipNotYetOnDrive parseTs events videosOnDrive e,
   sorted_getEventsWithClipNotYetOnDrive parseTs events videosOnDrive⟩

/-- Folding `getOldestStep` from a seed yields a minimal-timestamp candidate
among the seed and the traversed videos. -/
theorem getOldestStep_fold (parseTs : String → Int) :
    ∀ (l : List String) (a : String),
      ∃ o, l.foldl (getOldestStep parseTs) (some a) = some o
        ∧ (o = a ∨ o ∈ l) ∧ parseTs o ≤ parseTs a ∧ ∀ v ∈ l, parseTs o ≤ parseTs v
  | [], a => ⟨a, rfl, Or.inl rfl, le_refl _, by simp⟩
  | v :: rest, a => by
    have hstep : getOldestStep parseTs (some a) v
        = some (if parseTs a > parseTs v then v else a) := by
      simp only [getOldestStep]
      split <;> rfl
    rw [List.foldl_cons, hstep]
    obtain ⟨o, ho, hmem, hle, hall⟩ :=
      getOldestStep_fold parseTs rest (if parseTs a > parseTs v then v else a)
    by_cases hcmp : parseTs a > parseTs v
    · rw [if_pos hcmp] at ho hmem hle ⊢
      refine ⟨o, ho, ?_, by omega, ?_⟩
      · rcases hmem with rfl | h
        · exact Or.inr (List.mem_cons_self _ _)
        · exact Or.inr (List.mem_cons_of_mem _ h)
      · intro u hu
        rcases List.mem_cons.mp hu with rfl | hu'
        · exact hle
        · exact hall u hu'
    · rw [if_neg hcmp] at ho hmem hle ⊢
      refine ⟨o, ho, ?_, hle, ?_⟩
      · rcases hmem with rfl | h
        · exact Or.inl rfl
        · exact Or.inr (List.mem_cons_of_mem v h)
      · intro u hu
        rcases List.mem_cons.mp hu with rfl | hu'
        · omega
        · exact hall u hu'

/-- `getOldestVideoName` returns a member of the snapshot of minimal parsed
timestamp. -/
theorem getOldestVideoName_min (parseTs : String → Int) (vs : List String) (o : String)
    (h : getOldestVideoName parseTs vs = some o) :
    o ∈ vs ∧ ∀ v ∈ vs, parseTs o ≤ parseTs v := by
  cases vs with
  | nil => simp [getOldestVideoName] at h
  | cons v rest =>
    unfold getOldestVideoName at h
    rw [List.foldl_cons, show getOldestStep parseTs none v = some v from rfl] at h
    obtain ⟨o', ho', hmem, hle, hall⟩ := getOldestStep_fold parseTs rest v
    rw [ho'] at h
    cases h
    constructor
    · rcases hmem with rfl | hmem'
      · exact List.mem_cons_self o rest
      · exact List.mem_cons_of_mem v hmem'
    · intro u hu
      rcases List.mem_cons.mp hu with rfl | hu'
      · exact hle
      · exact hall u hu'

/-- The eviction loop exits only when the available space minus the 10 MB
margin covers the incoming file. -/
theorem ensureSpace_exit (parseTs : String → Int) (delOk : String → Bool) (fileSize : Nat) :
    ∀ (fuel : Nat) (d : DriveStore) (vs : List String) (d' : DriveStore)
      (vs' : List String) (calls : List RemoteCall),
      ensureThatTheDriveHasEnoughSpace parseTs delOk fileSize fuel d vs
        = some (d', vs', calls) →
      (fileSize : Int) ≤ getAvailableSpace d' - 10000000
  | 0, d, vs, d', vs', calls => by
    intro h
    simp [ensureThatTheDriveHasEnoughSpace] at h
  | fuel + 1, d, vs, d', vs', calls => by
    intro h
    simp only [ensureThatTheDriveHasEnoughSpace] at h
    split at h
    · rename_i hen
      cases h
      simp only [isEnoughSpaceInDriveForFile, Bool.not_eq_true', decide_eq_false_iff_not,
        Int.not_lt] at hen
      omega
    · split at h
      · exact ensureSpace_exit parseTs delOk fileSize fuel _ _ _ _ _ h
      · rename_i o ho
        rw [Option.map_eq_some'] at h
        obtain ⟨⟨d'', vs'', calls''⟩, hrec, hmap⟩ := h
        simp only [Prod.mk.injEq] at hmap
        obtain ⟨rfl, rfl, hcalls⟩ := hmap
        split at hrec
        · exact ensureSpace_exit parseTs delOk fileSize fuel _ _ _ _ _ hrec
        · exact ensureSpace_exit parseTs delOk fileSize fuel _ _ _ _ _ hrec

/-- One unfolding of the eviction loop under pressure: the oldest video is
deleted through the store and dropped from the snapshot exactly when the
deletion reports success. -/
theorem ensureSpace_step (parseTs : String → Int) (delOk : String → Bool) (fileSize : Nat)
    (fuel : Nat) (d : DriveStore) (vs : List String) (o : String)
    (hen : isEnoughSpaceInDriveForFile fileSize d = false)
    (ho : getOldestVideoName parseTs vs = some o) :
    ensureThatTheDriveHasEnoughSpace parseTs delOk fileSize (fuel + 1) d vs =
      Option.map (fun r => (r.1, r.2.1, RemoteCall.deleteObject o :: r.2.2))
        (if delOk o then
          ensureThatTheDriveHasEnoughSpace parseTs delOk fileSize fuel
            (deleteVideoEffect d o) (vs.erase o)
        else
          ensureThatTheDriveHasEnoughSpace parseTs delOk fileSize fuel d vs) := by
  simp only [ensureThatTheDriveHasEnoughSpace, hen, Bool.false_eq_true, if_false, ho]

/-- Claim C2: before an upload of a file of size `S`, the eviction loop of
`ensureThatTheDriveHasEnoughSpace` repeats: while available bytes minus the
10 MB margin are below `S` it selects the single oldest stored object by
parsed timestamp from the snapshot, issues its deletion, and removes it
from the snapshot exactly when the deletion reports success; the loop exits
only when available bytes minus the margin reach `S`. -/
theorem eviction_loop_spec (parseTs : String → Int) (delOk : String → Bool)
    (fileSize : Nat) (fuel : Nat) (d : DriveStore) (vs : List String) :
    (∀ d' vs' calls,
      ensureThatTheDriveHasEnoughSpace parseTs delOk fileSize fuel d vs
        = some (d', vs', calls) →
      (fileSize : Int) ≤ getAvailableSpace d' - 10000000)
    ∧ (∀ o, getOldestVideoName parseTs vs = some o →
        o ∈ vs ∧ ∀ v ∈ vs, parseTs o ≤ parseTs v)
    ∧ (isEnoughSpaceInDriveForFile fileSize d = false →
      ∀ o, getOldestVideoName parseTs vs = some o →
        ensureThatTheDriveHasEnoughSpace parseTs delOk fileSize (fuel + 1) d vs =
          Option.map (fun r => (r.1, r.2.1, RemoteCall.deleteObject o :: r.2.2))
            (if delOk o then
              ensureThatTheDriveHasEnoughSpace parseTs delOk fileSize fuel
                (deleteVideoEffect d o) (vs.erase o)
            else
              ensureThatTheDriveHasEnoughSpace parseTs delOk fileSize fuel d vs)) :=
  ⟨fun d' vs' calls h => ensureSpace_exit parseTs delOk fileSize fuel d vs d' vs' calls h,
   fun o ho => getOldestVideoName_min parseTs vs o ho,
   fun hen o ho => ensureSpace_step parseTs delOk fileSize fuel d vs o hen ho⟩

/-- Witness for the eviction-loop claim on the spec's worked example shape:
three stored objects of 2 MB, 4 MB and 1 MB on a 16 MB quota, an incoming
3 MB file; the loop deletes the two oldest objects and exits with 5 MB
available, satisfying the margin condition. -/
theorem eviction_loop_spec_witness :
    ((3000000 : Nat) : Int)
      ≤ getAvailableSpace ⟨[⟨"333", 1000000⟩], 16000000⟩ - 10000000 :=
  (eviction_loop_spec (fun s => (s.length : Int)) (fun _ => true) 3000000 5
    ⟨[⟨"1", 2000000⟩, ⟨"22", 4000000⟩, ⟨"333", 1000000⟩], 16000000⟩
    ["1", "22", "333"]).1
    ⟨[⟨"333", 1000000⟩], 16000000⟩ ["333"]
    [RemoteCall.deleteObject "1", RemoteCall.deleteObject "22"]
    (by decide)

/-! ### Helper lemmas about the Storage-Bounded Archiver -/

/-- Every call issued by the eviction loop is a `deleteObject`. -/
theorem ensureSpace_calls (parseTs : String → Int) (delOk : String → Bool) (fileSize : Nat) :
    ∀ (fuel : Nat) (d : DriveStore) (vs : List String) (d' : DriveStore)
      (vs' : List String) (calls : List RemoteCall),
      ensureThatTheDriveHasEnoughSpace parseTs delOk fileSize fuel d vs
        = some (d', vs', calls) →
      ∀ c ∈ calls, ∃ n, c = RemoteCall.deleteObject n
  | 0, d, vs, d', vs', calls => by
    intro h
    simp [ensureThatTheDriveHasEnoughSpace] at h
  | fuel + 1, d, vs, d', vs', calls => by
    intro h c hc
    simp only [ensureThatTheDriveHasEnoughSpace] at h
    split at h
    · cases h
      simp at hc
    · split at h
      · exact ensureSpace_calls parseTs delOk fileSize fuel _ _ _ _ _ h c hc
      · rename_i o ho
        rw [Option.map_eq_some'] at h
        obtain ⟨⟨d'', vs'', calls''⟩, hrec, hmap⟩ := h
        simp only [Prod.mk.injEq] at hmap
        obtain ⟨rfl, rfl, hcalls⟩ := hmap
        rw [← hcalls] at hc
        rcases List.mem_cons.mp hc with rfl | hc'
        · exact ⟨o, rfl⟩
        · split at hrec
          · exact ensureSpace_calls parseTs delOk fileSize fuel _ _ _ _ _ hrec c hc'
          · exact ensureSpace_calls parseTs delOk fileSize fuel _ _ _ _ _ hrec c hc'

/-- Inversion of one archiver iteration: either the download failed and only
the failure counter moved, or the download succeeded, the eviction loop
exited, and the success arm ran in full. -/
theorem uploadOneReadyClip_inv (parseTs : String → Int) (env : Env) (fuel : Nat)
    (st : ArchSt) (e : CameraEvent) (st1 : ArchSt)
    (h : uploadOneReadyClip parseTs env fuel st e = some st1) :
    (env.download e = false ∧ st1 = { st with failure := st.failure + 1 })
    ∨ (env.download e = true ∧ ∃ d vs evictCalls,
        ensureThatTheDriveHasEnoughSpace parseTs env.delVideo (env.clipSize e) fuel
            st.drive st.videosOnDrive = some (d, vs, evictCalls)
        ∧ st1 = { events := st.events.filter (fun x => !(x.id == e.id)),
                  drive := if env.upload e
                    then { d with files := d.files ++ [⟨e.timestamp ++ ".mp4", env.clipSize e⟩] }
                    else d,
                  videosOnDrive := setAdd vs (e.timestamp ++ ".mp4"),
                  success := st.success + 1,
                  failure := st.failure,
                  calls := st.calls ++ evictCalls
                    ++ [RemoteCall.uploadObject (e.timestamp ++ ".mp4"),
                        RemoteCall.deleteEvent e.id] }) := by
  unfold uploadOneReadyClip at h
  cases hdl : env.download e with
  | false =>
    rw [hdl] at h
    exact Or.inl ⟨rfl, (Option.some.inj h).symm⟩
  | true =>
    rw [hdl] at h
    cases hrec : ensureThatTheDriveHasEnoughSpace parseTs env.delVideo (env.clipSize e) fuel
        st.drive st.videosOnDrive with
    | none =>
      rw [hrec] at h
      exact Option.noConfusion h
    | some r =>
      obtain ⟨d, vs, evictCalls⟩ := r
      rw [hrec] at h
      exact Or.inr ⟨rfl, d, vs, evictCalls, rfl, (Option.some.inj h).symm⟩

/-- Inversion of the archiver fold on a cons cell. -/
theorem arch_cons_inv (parseTs : String → Int) (env : Env) (fuel : Nat)
    (e : CameraEvent) (rest : List CameraEvent) (st st' : ArchSt)
    (h : uploadingAllReadyClipsFromBoschToDrive parseTs env fuel (e :: rest) st
      = some st') :
    ∃ st1, uploadOneReadyClip parseTs env fuel st e = some st1
      ∧ uploadingAllReadyClipsFromBoschToDrive parseTs env fuel rest st1 = some st' := by
  simp only [uploadingAllReadyClipsFromBoschToDrive] at h
  cases hstep : uploadOneReadyClip parseTs env fuel st e with
  | none =>
    rw [hstep] at h
    exact Option.noConfusion h
  | some st1 =>
    rw [hstep] at h
    exact ⟨st1, rfl, h⟩

/-- The archiver only removes events from the Remote Event Source. -/
theorem arch_events_subset (parseTs : String → Int) (env : Env) (fuel : Nat) :
    ∀ (ready : List CameraEvent) (st st' : ArchSt),
      uploadingAllReadyClipsFromBoschToDrive parseTs env fuel ready st = some st' →
      ∀ x ∈ st'.events, x ∈ st.events
  | [], st, st' => by
    intro h x hx
    cases h
    exact hx
  | e :: rest, st, st' => by
    intro h x hx
    obtain ⟨st1, hstep, hrest⟩ := arch_cons_inv parseTs env fuel e rest st st' h
    have hx1 : x ∈ st1.events :=
      arch_events_subset parseTs env fuel rest st1 st' hrest x hx
    rcases uploadOneReadyClip_inv parseTs env fuel st e st1 hstep with
      ⟨-, rfl⟩ | ⟨-, d, vs, evictCalls, -, rfl⟩
    · exact hx1
    · exact List.mem_of_mem_filter hx1

/-- The archiver only appends to the list of issued calls. -/
theorem arch_calls_mono (parseTs : String → Int) (env : Env) (fuel : Nat) :
    ∀ (ready : List CameraEvent) (st st' : ArchSt),
      uploadingAllReadyClipsFromBoschToDrive parseTs env fuel ready st = some st' →
      ∃ t, st'.calls = st.calls ++ t
  | [], st, st' => by
    intro h
    cases h
    exact ⟨[], (List.append_nil _).symm⟩
  | e :: rest, st, st' => by
    intro h
    obtain ⟨st1, hstep, hrest⟩ := arch_cons_inv parseTs env fuel e rest st st' h
    obtain ⟨t, ht⟩ := arch_calls_mono parseTs env fuel rest st1 st' hrest
    rcases uploadOneReadyClip_inv parseTs env fuel st e st1 hstep with
      ⟨-, rfl⟩ | ⟨-, d, vs, evictCalls, -, rfl⟩
    · exact ⟨t, ht⟩
    · refine ⟨(evictCalls ++ [RemoteCall.uploadObject (e.timestamp ++ ".mp4"),
        RemoteCall.deleteEvent e.id]) ++ t, ?_⟩
      simp only at ht
      rw [ht]
      simp [List.append_assoc]

/-- Every call the archiver issues is an upload, an eviction deletion or a
source-event deletion — never an export request or a favorite change. -/
theorem arch_calls_shape (parseTs : String → Int) (env : Env) (fuel : Nat) :
    ∀ (ready : List CameraEvent) (st st' : ArchSt),
      uploadingAllReadyClipsFromBoschToDrive parseTs env fuel ready st = some st' →
      ∀ c ∈ st'.calls, c ∈ st.calls ∨ (∃ n, c = RemoteCall.deleteObject n)
        ∨ (∃ n, c = RemoteCall.uploadObject n) ∨ (∃ i, c = RemoteCall.deleteEvent i)
  | [], st, st' => by
    intro h c hc
    cases h
    exact Or.inl hc
  | e :: rest, st, st' => by
    intro h c hc
    obtain ⟨st1, hstep, hrest⟩ := arch_cons_inv parseTs env fuel e rest st st' h
    rcases arch_calls_shape parseTs env fuel rest st1 st' hrest c hc with h1 | h1 | h1 | h1
    · rcases uploadOneReadyClip_inv parseTs env fuel st e st1 hstep with
        ⟨-, rfl⟩ | ⟨-, d, vs, evictCalls, hrec, rfl⟩
      · exact Or.inl h1
      · simp only [List.mem_append] at h1
        rcases h1 with (h2 | h2) | h2
        · exact Or.inl h2
        · exact Or.inr (Or.inl
            (ensureSpace_calls parseTs env.delVideo _ fuel _ _ _ _ _ hrec c h2))
        · rcases List.mem_cons.mp h2 with rfl | h3
          · exact Or.inr (Or.inr (Or.inl ⟨_, rfl⟩))
          · rcases List.mem_singleton.mp h3 with rfl
            exact Or.inr (Or.inr (Or.inr ⟨_, rfl⟩))
    · exact Or.inr (Or.inl h1)
    · exact Or.inr (Or.inr (Or.inl h1))
    · exact Or.inr (Or.inr (Or.inr h1))

/-- If a ready event's clip downloads successfully, its id is gone from the
Remote Event Source after the batch: the success arm always issues
`deleteEvent`. -/
theorem arch_download_kills (parseTs : String → Int) (env : Env) (fuel : Nat) :
    ∀ (ready : List CameraEvent) (st st' : ArchSt) (e : CameraEvent),
      e ∈ ready → env.download e = true →
      uploadingAllReadyClipsFromBoschToDrive parseTs env fuel ready st = some st' →
      ∀ x ∈ st'.events, ¬ x.id = e.id
  | [], st, st', e => by
    intro he
    simp at he
  | a :: rest, st, st', e => by
    intro he hdl h x hx
    obtain ⟨st1, hstep, hrest⟩ := arch_cons_inv parseTs env fuel a rest st st' h
    rcases List.mem_cons.mp he with rfl | he'
    · have hx1 : x ∈ st1.events :=
        arch_events_subset parseTs env fuel rest st1 st' hrest x hx
      rcases uploadOneReadyClip_inv parseTs env fuel st e st1 hstep with
        ⟨hf, rfl⟩ | ⟨-, d, vs, evictCalls, -, rfl⟩
      · rw [hdl] at hf
        exact Bool.noConfusion hf
      · have := List.of_mem_filter hx1
        simp only [Bool.not_eq_true', beq_eq_false_iff_ne, ne_eq] at this
        exact this
    · exact arch_download_kills parseTs env fuel rest st1 st' e he' hdl hrest x hx
    termination_by ready => ready.length

/-- When every download in the bucket fails, the batch leaves everything
unchanged except the failure counter, which counts the whole bucket. -/
theorem arch_all_fail (parseTs : String → Int) (env : Env) (fuel : Nat) :
    ∀ (ready : List CameraEvent) (st : ArchSt),
      (∀ e ∈ ready, env.download e = false) →
      uploadingAllReadyClipsFromBoschToDrive parseTs env fuel ready st
        = some { st with failure := st.failure + ready.length }
  | [], st => by
    intro _
    simp [uploadingAllReadyClipsFromBoschToDrive]
  | e :: rest, st => by
    intro hall
    have hstep : uploadOneReadyClip parseTs env fuel st e
        = some { st with failure := st.failure + 1 } := by
      unfold uploadOneReadyClip
      rw [hall e (List.mem_cons_self _ _)]
      simp
    simp only [uploadingAllReadyClipsFromBoschToDrive, hstep]
    rw [arch_all_fail parseTs env fuel rest { st with failure := st.failure + 1 }
      (fun x hx => hall x (List.mem_cons_of_mem _ hx))]
    simp only [List.length_cons]
    have harith : st.failure + 1 + rest.length = st.failure + (rest.length + 1) := by omega
    rw [harith]

/-- Whenever a ready event's download succeeds, the batch records the
`deleteEvent` call for it. -/
theorem arch_deleteEvent_called (parseTs : String → Int) (env : Env) (fuel : Nat) :
    ∀ (ready : List CameraEvent) (st st' : ArchSt) (e : CameraEvent),
      e ∈ ready → env.download e = true →
      uploadingAllReadyClipsFromBoschToDrive parseTs env fuel ready st = some st' →
      RemoteCall.deleteEvent e.id ∈ st'.calls
  | [], st, st', e => by
    intro he
    simp at he
  | a :: rest, st, st', e => by
    intro he hdl h
    obtain ⟨st1, hstep, hrest⟩ := arch_cons_inv parseTs env fuel a rest st st' h
    rcases List.mem_cons.mp he with rfl | he'
    · obtain ⟨t, ht⟩ := arch_calls_mono parseTs env fuel rest st1 st' hrest
      rcases uploadOneReadyClip_inv parseTs env fuel st e st1 hstep with
        ⟨hf, rfl⟩ | ⟨-, d, vs, evictCalls, -, rfl⟩
      · rw [hdl] at hf
        exact Bool.noConfusion hf
      · rw [ht]
        simp
    · exact arch_deleteEvent_called parseTs env fuel rest st1 st' e he' hdl hrest
    termination_by ready => ready.length

/-- Inversion of the archive branch: the Archiver runs only with a non-empty
ready bucket, and on the whole of it. -/
theorem handleClipsAction_archive_inv (l : List CameraEvent) (r : List CameraEvent)
    (h : handleClipsAction l = TickAction.archive r) :
    r = (splitCameraEventByClipStatus l).1 ∧ (splitCameraEventByClipStatus l).1 ≠ [] := by
  simp only [handleClipsAction] at h
  split at h
  · rename_i h1
    cases h
    refine ⟨rfl, ?_⟩
    simp only [canClipsBeUpload, decide_eq_true_eq] at h1
    exact List.length_pos.mp h1
  · split at h
    · split at h
      · exact absurd h (by simp)
      · exact absurd h (by simp)
    · split at h
      · split at h
        · exact absurd h (by simp)
        · exact absurd h (by simp)
      · exact absurd h (by simp)

/-- An empty-list check used to steer `tickRun`. -/
theorem isEmpty_eq_false_of_ne_nil {α : Type} (l : List α) (h : l ≠ []) :
    l.isEmpty = false := by
  cases l with
  | nil => exact absurd rfl h
  | cons a t => rfl

/-- Claim C3: in a tick with a non-empty classifier output, a non-empty
ready bucket makes the tick run only the Archiver — no export request and
no favorite promotion is issued; an export request is issued only when the
ready bucket is empty; a favorite promotion is issued only when
additionally no request was admitted. -/
theorem tick_priority_order (parseTs : String → Int) (env : Env) (fuel : Nat)
    (remote : Remote) (videosOnDrive : List String) (res : TickResult)
    (hne : getEventsWithClipNotYetOnDrive parseTs remote.events videosOnDrive ≠ [])
    (hrun : tickRun parseTs env fuel remote videosOnDrive = some res) :
    ((splitCameraEventByClipStatus
        (getEventsWithClipNotYetOnDrive parseTs remote.events videosOnDrive)).1 ≠ [] →
      handleClipsAction (getEventsWithClipNotYetOnDrive parseTs remote.events videosOnDrive)
          = TickAction.archive (splitCameraEventByClipStatus
            (getEventsWithClipNotYetOnDrive parseTs remote.events videosOnDrive)).1
        ∧ (∀ i, ¬ RemoteCall.requestClip i ∈ res.calls)
        ∧ (∀ i b, ¬ RemoteCall.setFavorite i b ∈ res.calls))
    ∧ (∀ i, RemoteCall.requestClip i ∈ res.calls →
        (splitCameraEventByClipStatus
          (getEventsWithClipNotYetOnDrive parseTs remote.events videosOnDrive)).1 = [])
    ∧ (∀ i b, RemoteCall.setFavorite i b ∈ res.calls →
        (splitCameraEventByClipStatus
            (getEventsWithClipNotYetOnDrive parseTs remote.events videosOnDrive)).1 = []
          ∧ canClipsBeRequest
              (splitCameraEventByClipStatus
                (getEventsWithClipNotYetOnDrive parseTs remote.events videosOnDrive)).2.1
              (splitCameraEventByClipStatus
                (getEventsWithClipNotYetOnDrive parseTs remote.events videosOnDrive)).2.2
              = false) := by
  have hie := isEmpty_eq_false_of_ne_nil _ hne
  simp only [tickRun, hie, Bool.false_eq_true, if_false] at hrun
  split at hrun
  · -- archive branch
    rename_i r hact
    obtain ⟨rfl, hrne⟩ := handleClipsAction_archive_inv _ _ hact
    split at hrun
    · exact absurd hrun (by simp)
    · rename_i st harch
      have hres : res = ⟨st.calls, ⟨st.events, st.drive⟩, st.videosOnDrive⟩ :=
        (Option.some.inj hrun).symm
      have hshape := arch_calls_shape parseTs env fuel _ _ _ harch
      have hnoreq : ∀ i, ¬ RemoteCall.requestClip i ∈ res.calls := by
        intro i hi
        rw [hres] at hi
        rcases hshape _ hi with h1 | ⟨n, h1⟩ | ⟨n, h1⟩ | ⟨n, h1⟩ <;> simp at h1
      have hnofav : ∀ i b, ¬ RemoteCall.setFavorite i b ∈ res.calls := by
        intro i b hi
        rw [hres] at hi
        rcases hshape _ hi with h1 | ⟨n, h1⟩ | ⟨n, h1⟩ | ⟨n, h1⟩ <;> simp at h1
      exact ⟨fun _ => ⟨hact, hnoreq, hnofav⟩,
        fun i hi => absurd hi (hnoreq i),
        fun i b hi => absurd hi (hnofav i b)⟩
  · -- request branch
    rename_i e hact
    obtain ⟨hready, hcan, -⟩ := handleClipsAction_request_inv _ _ hact
    have hres : res = ⟨[RemoteCall.requestClip e.id],
        ⟨requestClipEffect remote.events e.id, remote.drive⟩, videosOnDrive⟩ :=
      (Option.some.inj hrun).symm
    refine ⟨fun hrne => absurd hready hrne, fun i hi => hready, fun i b hi => ?_⟩
    rw [hres] at hi
    simp at hi
  · -- favorite branch
    rename_i e hact
    obtain ⟨hready, hcan, -, -⟩ := handleClipsAction_favorite_inv _ _ hact
    have hres : res = ⟨[RemoteCall.setFavorite e.id true],
        ⟨setFavoriteEffect remote.events e.id, remote.drive⟩, videosOnDrive⟩ :=
      (Option.some.inj hrun).symm
    refine ⟨fun hrne => absurd hready hrne, fun i hi => ?_, fun i b hi => ⟨hready, hcan⟩⟩
    rw [hres] at hi
    simp at hi
  · -- favoriteNone branch
    have hres : res = ⟨[], remote, videosOnDrive⟩ := (Option.some.inj hrun).symm
    rw [hres]
    exact ⟨fun hrne => ⟨handleClipsAction_eq_archive _ hrne, by simp, by simp⟩,
      by simp, by simp⟩
  · -- backoff branch
    have hres : res = ⟨[], remote, videosOnDrive⟩ := (Option.some.inj hrun).symm
    rw [hres]
    exact ⟨fun hrne => ⟨handleClipsAction_eq_archive _ hrne, by simp, by simp⟩,
      by simp, by simp⟩

/-- Witness for the priority claim: one ready and one requestable event in
the same tick make the tick commit to the Archiver on the ready bucket. -/
theorem tick_priority_order_witness :
    handleClipsAction (getEventsWithClipNotYetOnDrive (fun s => (s.length : Int))
        [⟨"r", EventType.MOVEMENT, "1", false, EventVideoClipUploadStatus.Done⟩,
         ⟨"q", EventType.MOVEMENT, "22", false, EventVideoClipUploadStatus.Local⟩] [])
      = TickAction.archive
          [⟨"r", EventType.MOVEMENT, "1", false, EventVideoClipUploadStatus.Done⟩] :=
  ((tick_priority_order (fun s => (s.length : Int))
      ⟨fun _ => true, fun _ => true, fun _ => true, fun _ => 1⟩ 1
      ⟨[⟨"r", EventType.MOVEMENT, "1", false, EventVideoClipUploadStatus.Done⟩,
        ⟨"q", EventType.MOVEMENT, "22", false, EventVideoClipUploadStatus.Local⟩],
       ⟨[], 20000000⟩⟩ []
      ⟨[RemoteCall.uploadObject "1.mp4", RemoteCall.deleteEvent "r"],
       ⟨[⟨"q", EventType.MOVEMENT, "22", false, EventVideoClipUploadStatus.Local⟩],
        ⟨[⟨"1.mp4", 1⟩], 20000000⟩⟩, ["1.mp4"]⟩
      (by decide) (by decide)).1 (by decide)).1

/-- Counterexample to claim C5 as stated: a tick with one ready clip, one
requestable clip and an empty pending bucket.  The requestable bucket is
non-empty and the pending count is below the cap of 3, yet the tick issues
no export request — it archives, because the ready bucket takes priority.
Claim C5's "otherwise it issues exactly one export request" therefore fails
without the additional condition that the ready bucket be empty. -/
theorem request_skipped_despite_admissible_slot :
    handleClipsAction (getEventsWithClipNotYetOnDrive (fun s => (s.length : Int))
        [⟨"r", EventType.MOVEMENT, "1", false, EventVideoClipUploadStatus.Done⟩,
         ⟨"q", EventType.MOVEMENT, "22", false, EventVideoClipUploadStatus.Local⟩] [])
      = TickAction.archive
          [⟨"r", EventType.MOVEMENT, "1", false, EventVideoClipUploadStatus.Done⟩]
    ∧ (splitCameraEventByClipStatus (getEventsWithClipNotYetOnDrive (fun s => (s.length : Int))
        [⟨"r", EventType.MOVEMENT, "1", false, EventVideoClipUploadStatus.Done⟩,
         ⟨"q", EventType.MOVEMENT, "22", false, EventVideoClipUploadStatus.Local⟩] [])).2.1
      = [⟨"q", EventType.MOVEMENT, "22", false, EventVideoClipUploadStatus.Local⟩]
    ∧ (splitCameraEventByClipStatus (getEventsWithClipNotYetOnDrive (fun s => (s.length : Int))
        [⟨"r", EventType.MOVEMENT, "1", false, EventVideoClipUploadStatus.Done⟩,
         ⟨"q", EventType.MOVEMENT, "22", false, EventVideoClipUploadStatus.Local⟩] [])).2.2
      = [] := by
  decide

/-- Claim C5 as amended: the tick issues no export request when the pending
bucket has reached the cap of 3 or the requestable bucket is empty; when
additionally the ready bucket is empty, it issues exactly one export
request, for a maximal-parsed-timestamp (most recent) event of the
requestable bucket. -/
theorem requester_admission (parseTs : String → Int)
    (events : List CameraEvent) (videosOnDrive : List String) :
    ((maxNumberOfManualRequest ≤ (splitCameraEventByClipStatus
          (getEventsWithClipNotYetOnDrive parseTs events videosOnDrive)).2.2.length
        ∨ (splitCameraEventByClipStatus
          (getEventsWithClipNotYetOnDrive parseTs events videosOnDrive)).2.1 = []) →
      ∀ e, ¬ handleClipsAction (getEventsWithClipNotYetOnDrive parseTs events videosOnDrive)
          = TickAction.request e)
    ∧ ((splitCameraEventByClipStatus
          (getEventsWithClipNotYetOnDrive parseTs events videosOnDrive)).1 = [] →
       (splitCameraEventByClipStatus
          (getEventsWithClipNotYetOnDrive parseTs events videosOnDrive)).2.1 ≠ [] →
       (splitCameraEventByClipStatus
          (getEventsWithClipNotYetOnDrive parseTs events videosOnDrive)).2.2.length
         < maxNumberOfManualRequest →
      ∃ e, handleClipsAction (getEventsWithClipNotYetOnDrive parseTs events videosOnDrive)
          = TickAction.request e
        ∧ e ∈ (splitCameraEventByClipStatus
            (getEventsWithClipNotYetOnDrive parseTs events videosOnDrive)).2.1
        ∧ ∀ x ∈ (splitCameraEventByClipStatus
            (getEventsWithClipNotYetOnDrive parseTs events videosOnDrive)).2.1,
            parseTs x.timestamp ≤ parseTs e.timestamp) := by
  constructor
  · rintro hblock e hact
    obtain ⟨-, hcan, -⟩ := handleClipsAction_request_inv _ _ hact
    simp only [canClipsBeRequest, Bool.and_eq_true, decide_eq_true_eq] at hcan
    rcases hblock with hfull | hempty
    · omega
    · rw [hempty] at hcan
      simp at hcan
  · intro hready hreq hpend
    obtain ⟨e, hact, hlast⟩ := handleClipsAction_eq_request _ hready hreq hpend
    refine ⟨e, hact, List.mem_of_getLast?_eq_some hlast, ?_⟩
    have hsorted : ((splitCameraEventByClipStatus
        (getEventsWithClipNotYetOnDrive parseTs events videosOnDrive)).2.1).Pairwise
          (fun a b => parseTs a.timestamp ≤ parseTs b.timestamp) := by
      rw [splitCameraEventByClipStatus_eq_filters]
      exact (sorted_getEventsWithClipNotYetOnDrive parseTs events videosOnDrive).sublist
        (List.filter_sublist _)
    intro x hx
    rcases pairwise_rel_getLast _ _ hsorted e hlast x hx with h | rfl
    · exact h
    · exact le_refl _

/-- Witness for the amended requester claim: two requestable clips, nothing
ready and nothing pending; the tick requests the most recent one. -/
theorem requester_admission_witness :
    ∃ e, handleClipsAction (getEventsWithClipNotYetOnDrive (fun s => (s.length : Int))
        [⟨"a", EventType.MOVEMENT, "1", false, EventVideoClipUploadStatus.Local⟩,
         ⟨"b", EventType.MOVEMENT, "22", false, EventVideoClipUploadStatus.Unavailable⟩] [])
        = TickAction.request e
      ∧ e ∈ (splitCameraEventByClipStatus
          (getEventsWithClipNotYetOnDrive (fun s => (s.length : Int))
            [⟨"a", EventType.MOVEMENT, "1", false, EventVideoClipUploadStatus.Local⟩,
             ⟨"b", EventType.MOVEMENT, "22", false, EventVideoClipUploadStatus.Unavailable⟩]
            [])).2.1
      ∧ ∀ x ∈ (splitCameraEventByClipStatus
          (getEventsWithClipNotYetOnDrive (fun s => (s.length : Int))
            [⟨"a", EventType.MOVEMENT, "1", false, EventVideoClipUploadStatus.Local⟩,
             ⟨"b", EventType.MOVEMENT, "22", false, EventVideoClipUploadStatus.Unavailable⟩]
            [])).2.1,
          (fun s => (s.length : Int)) x.timestamp ≤ (fun s => (s.length : Int)) e.timestamp :=
  (requester_admission (fun s => (s.length : Int))
    [⟨"a", EventType.MOVEMENT, "1", false, EventVideoClipUploadStatus.Local⟩,
     ⟨"b", EventType.MOVEMENT, "22", false, EventVideoClipUploadStatus.Unavailable⟩] []).2
    (by decide) (by decide) (by decide)

/-- Under the retention-guard condition the working set holds a
non-favorite event, so the `find` of `setOldestNonFavoriteEventAsFavorite`
succeeds. -/
theorem find_nonfavorite_of_should (l : List CameraEvent)
    (h : shouldClipBeSetAsFavorite l = true) :
    ∃ e, l.find? (fun x => !x.isFavorite) = some e := by
  simp only [shouldClipBeSetAsFavorite, Bool.and_eq_true, decide_eq_true_eq,
    maxNumberOfNotFavoriteEvent] at h
  have hpos : 0 < (l.filter (fun x => !x.isFavorite)).length := by omega
  obtain ⟨x, hx⟩ := List.exists_mem_of_length_pos hpos
  have hx' := List.mem_filter.mp hx
  exact Option.isSome_iff_exists.mp
    (List.find?_isSome.mpr ⟨x, hx'.1, hx'.2⟩)

/-- With an empty ready bucket, no admitted request and the guard condition
true, the tick promotes exactly the first non-favorite of the working set. -/
theorem handleClipsAction_eq_favorite (l : List CameraEvent) (e : CameraEvent)
    (hready : (splitCameraEventByClipStatus l).1 = [])
    (hreq : canClipsBeRequest (splitCameraEventByClipStatus l).2.1
      (splitCameraEventByClipStatus l).2.2 = false)
    (hshould : shouldClipBeSetAsFavorite l = true)
    (hfind : l.find? (fun x => !x.isFavorite) = some e) :
    handleClipsAction l = TickAction.favorite e := by
  have hb : canClipsBeUpload (splitCameraEventByClipStatus l).1 = false := by
    simp [canClipsBeUpload, hready]
  simp only [handleClipsAction, hb, Bool.false_eq_true, if_false, hreq, hshould,
    if_true, hfind]

/-- Claim C6: in a tick that reaches the Retention Guard (ready bucket
empty, no admitted request), an event is promoted to favorite exactly when
fewer than 25 events of the working set are favorite and at least 200 are
not; the promoted event is a non-favorite member whose parsed timestamp is
minimal among non-favorites. -/
theorem retention_guard_promotion (parseTs : String → Int)
    (events : List CameraEvent) (videosOnDrive : List String)
    (hready : (splitCameraEventByClipStatus
      (getEventsWithClipNotYetOnDrive parseTs events videosOnDrive)).1 = [])
    (hreq : canClipsBeRequest
      (splitCameraEventByClipStatus
        (getEventsWithClipNotYetOnDrive parseTs events videosOnDrive)).2.1
      (splitCameraEventByClipStatus
        (getEventsWithClipNotYetOnDrive parseTs events videosOnDrive)).2.2 = false) :
    ((∃ e, handleClipsAction (getEventsWithClipNotYetOnDrive parseTs events videosOnDrive)
        = TickAction.favorite e) ↔
      (((getEventsWithClipNotYetOnDrive parseTs events videosOnDrive).filter
          (fun e => e.isFavorite)).length < maxNumberOfFavoriteEvent
        ∧ maxNumberOfNotFavoriteEvent ≤
          ((getEventsWithClipNotYetOnDrive parseTs events videosOnDrive).filter
            (fun e => !e.isFavorite)).length))
    ∧ (∀ e, handleClipsAction (getEventsWithClipNotYetOnDrive parseTs events videosOnDrive)
        = TickAction.favorite e →
        e ∈ getEventsWithClipNotYetOnDrive parseTs events videosOnDrive
          ∧ e.isFavorite = false
          ∧ ∀ x ∈ getEventsWithClipNotYetOnDrive parseTs events videosOnDrive,
              x.isFavorite = false → parseTs e.timestamp ≤ parseTs x.timestamp) := by
  constructor
  · constructor
    · rintro ⟨e, hact⟩
      obtain ⟨-, -, hshould, -⟩ := handleClipsAction_favorite_inv _ _ hact
      simpa only [shouldClipBeSetAsFavorite, Bool.and_eq_true, decide_eq_true_eq]
        using hshould
    · rintro ⟨hfav, hnonfav⟩
      have hshould : shouldClipBeSetAsFavorite
          (getEventsWithClipNotYetOnDrive parseTs events videosOnDrive) = true := by
        simp only [shouldClipBeSetAsFavorite, Bool.and_eq_true, decide_eq_true_eq]
        exact ⟨hfav, hnonfav⟩
      obtain ⟨e, hfind⟩ := find_nonfavorite_of_should _ hshould
      exact ⟨e, handleClipsAction_eq_favorite _ e hready hreq hshould hfind⟩
  · intro e hact
    obtain ⟨-, -, -, hfind⟩ := handleClipsAction_favorite_inv _ _ hact
    have hmem := List.mem_of_find?_eq_some hfind
    have hp := List.find?_some hfind
    simp only [Bool.not_eq_true'] at hp
    refine ⟨hmem, hp, ?_⟩
    intro x hx hxfav
    have hsorted := sorted_getEventsWithClipNotYetOnDrive parseTs events videosOnDrive
    rcases pairwise_rel_find _ _ _ hsorted e hfind x hx
        (by simp [Bool.not_eq_true', hxfav]) with h | rfl
    · exact h
    · exact le_refl _

set_option maxRecDepth 40000 in
/-- Witness for the retention-guard claim: 200 identical non-favorite
pending events; the guard condition holds and the tick promotes one. -/
theorem retention_guard_promotion_witness :
    (∃ e, handleClipsAction (getEventsWithClipNotYetOnDrive (fun s => (s.length : Int))
        (List.replicate 200
          ⟨"m", EventType.MOVEMENT, "1", false, EventVideoClipUploadStatus.Pending⟩) [])
        = TickAction.favorite e) ↔
      (((getEventsWithClipNotYetOnDrive (fun s => (s.length : Int))
          (List.replicate 200
            ⟨"m", EventType.MOVEMENT, "1", false, EventVideoClipUploadStatus.Pending⟩) []).filter
          (fun e => e.isFavorite)).length < maxNumberOfFavoriteEvent
        ∧ maxNumberOfNotFavoriteEvent ≤
          ((getEventsWithClipNotYetOnDrive (fun s => (s.length : Int))
            (List.replicate 200
              ⟨"m", EventType.MOVEMENT, "1", false, EventVideoClipUploadStatus.Pending⟩) []).filter
            (fun e => !e.isFavorite)).length) :=
  (retention_guard_promotion (fun s => (s.length : Int))
    (List.replicate 200
      ⟨"m", EventType.MOVEMENT, "1", false, EventVideoClipUploadStatus.Pending⟩) []
    (by decide) (by decide)).1

/-- Claim C9: whenever the Retention Guard's condition holds, the working
set contains a non-favorite event, the search of
`setOldestNonFavoriteEventAsFavorite` succeeds, and — when the guard branch
is reached — a favorite promotion is issued, so the miss branch is
unreachable. -/
theorem favorite_search_never_misses (l : List CameraEvent)
    (hshould : shouldClipBeSetAsFavorite l = true) :
    (∃ e, l.find? (fun x => !x.isFavorite) = some e)
    ∧ ((splitCameraEventByClipStatus l).1 = [] →
       canClipsBeRequest (splitCameraEventByClipStatus l).2.1
         (splitCameraEventByClipStatus l).2.2 = false →
       ∃ e, l.find? (fun x => !x.isFavorite) = some e
         ∧ handleClipsAction l = TickAction.favorite e) := by
  obtain ⟨e, hfind⟩ := find_nonfavorite_of_should l hshould
  exact ⟨⟨e, hfind⟩, fun hready hreq =>
    ⟨e, hfind, handleClipsAction_eq_favorite l e hready hreq hshould hfind⟩⟩

set_option maxRecDepth 40000 in
/-- Witness for the search-success claim on 200 identical non-favorite
pending events. -/
theorem favorite_search_never_misses_witness :
    ∃ e, (List.replicate 200
        (⟨"m2", EventType.MOVEMENT, "1", false,
          EventVideoClipUploadStatus.Pending⟩ : CameraEvent)).find?
        (fun x => !x.isFavorite) = some e :=
  (favorite_search_never_misses
    (List.replicate 200
      ⟨"m2", EventType.MOVEMENT, "1", false, EventVideoClipUploadStatus.Pending⟩)
    (by decide)).1

/-- An element added to the snapshot set is in the snapshot set. -/
theorem setAdd_mem_self (s : List String) (a : String) : a ∈ setAdd s a := by
  unfold setAdd
  split
  · rename_i h
    exact (contains_eq_true_iff s a).mp h
  · simp

/-- Claim C10: for every ready event whose download and upload both succeed,
the engine unconditionally issues `deleteEvent` for the event right after
adding `<timestamp>.mp4` to the snapshot: the per-event step ends with the
snapshot containing the name and the call trace ending in the upload
followed by the source-event deletion, and the batch records the
`deleteEvent` call. -/
theorem archived_event_source_deleted (parseTs : String → Int) (env : Env) (fuel : Nat)
    (ready : List CameraEvent) (st st' : ArchSt) (e : CameraEvent)
    (hmem : e ∈ ready) (hdl : env.download e = true) (hup : env.upload e = true)
    (harch : uploadingAllReadyClipsFromBoschToDrive parseTs env fuel ready st = some st') :
    RemoteCall.deleteEvent e.id ∈ st'.calls
    ∧ (∀ st1, uploadOneReadyClip parseTs env fuel st e = some st1 →
        (e.timestamp ++ ".mp4") ∈ st1.videosOnDrive
        ∧ ∃ pre, st1.calls = st.calls ++ pre
            ++ [RemoteCall.uploadObject (e.timestamp ++ ".mp4"),
                RemoteCall.deleteEvent e.id]) := by
  refine ⟨arch_deleteEvent_called parseTs env fuel ready st st' e hmem hdl harch, ?_⟩
  intro st1 hstep
  rcases uploadOneReadyClip_inv parseTs env fuel st e st1 hstep with
    ⟨hf, rfl⟩ | ⟨-, d, vs, evictCalls, -, rfl⟩
  · rw [hdl] at hf
    exact Bool.noConfusion hf
  · exact ⟨setAdd_mem_self _ _, evictCalls, rfl⟩

/-- Witness for the source-event deletion claim: one ready event, every
remote call succeeding; the archiver issues the `deleteEvent` call. -/
theorem archived_event_source_deleted_witness :
    RemoteCall.deleteEvent "e1" ∈
      (⟨[], ⟨[⟨"1.mp4", 1000000⟩], 20000000⟩, ["1.mp4"], 1, 0,
        [RemoteCall.uploadObject "1.mp4", RemoteCall.deleteEvent "e1"]⟩ : ArchSt).calls :=
  (archived_event_source_deleted (fun s => (s.length : Int))
    ⟨fun _ => true, fun _ => true, fun _ => true, fun _ => 1000000⟩ 1
    [⟨"e1", EventType.MOVEMENT, "1", false, EventVideoClipUploadStatus.Done⟩]
    ⟨[⟨"e1", EventType.MOVEMENT, "1", false, EventVideoClipUploadStatus.Done⟩],
      ⟨[], 20000000⟩, [], 0, 0, []⟩
    ⟨[], ⟨[⟨"1.mp4", 1000000⟩], 20000000⟩, ["1.mp4"], 1, 0,
      [RemoteCall.uploadObject "1.mp4", RemoteCall.deleteEvent "e1"]⟩
    ⟨"e1", EventType.MOVEMENT, "1", false, EventVideoClipUploadStatus.Done⟩
    (by decide) (by decide) (by decide) (by decide)).1

/-- Claim C1 is violated by the code: after a successful download, the
promise chain of `uploadingAllReadyClipsFromBoschToDrive` runs its success
arm even when the upload to the store failed, because
`uploadingLocalClipToDrive` swallows every error and returns a boolean the
caller never reads.  Here the upload oracle reports failure, yet the batch
ends with `success = 1`, `failure = 0`, the name `1.mp4` added to the
snapshot, and the source event deleted on the Bosch side. -/
theorem upload_failure_still_marked_success :
    uploadingAllReadyClipsFromBoschToDrive (fun s => (s.length : Int))
      ⟨fun _ => true, fun _ => false, fun _ => true, fun _ => 1000000⟩ 1
      [⟨"e1", EventType.MOVEMENT, "1", false, EventVideoClipUploadStatus.Done⟩]
      ⟨[⟨"e1", EventType.MOVEMENT, "1", false, EventVideoClipUploadStatus.Done⟩],
        ⟨[], 20000000⟩, [], 0, 0, []⟩
    = some ⟨[], ⟨[], 20000000⟩, ["1.mp4"], 1, 0,
        [RemoteCall.uploadObject "1.mp4", RemoteCall.deleteEvent "e1"]⟩
    ∧ (⟨fun _ => true, fun _ => false, fun _ => true, fun _ => 1000000⟩ : Env).upload
        ⟨"e1", EventType.MOVEMENT, "1", false, EventVideoClipUploadStatus.Done⟩
      = false := by
  decide

/-- Claim C8 is violated by the code on the upload side: in a two-event
bucket where the first clip's upload fails after a successful download and
the second clip's download fails, the batch continues past both failures
but logs `success = 1, failure = 1` instead of the claimed
`success = 0, failure = 2` — the failed upload is counted as a success. -/
theorem batch_summary_counts_failed_upload_as_success :
    uploadingAllReadyClipsFromBoschToDrive (fun s => (s.length : Int))
      ⟨fun e => e.id == "e1", fun _ => false, fun _ => true, fun _ => 1000000⟩ 1
      [⟨"e1", EventType.MOVEMENT, "1", false, EventVideoClipUploadStatus.Done⟩,
       ⟨"e2", EventType.MOVEMENT, "22", false, EventVideoClipUploadStatus.Done⟩]
      ⟨[⟨"e1", EventType.MOVEMENT, "1", false, EventVideoClipUploadStatus.Done⟩,
        ⟨"e2", EventType.MOVEMENT, "22", false, EventVideoClipUploadStatus.Done⟩],
        ⟨[], 20000000⟩, [], 0, 0, []⟩
    = some ⟨[⟨"e2", EventType.MOVEMENT, "22", false, EventVideoClipUploadStatus.Done⟩],
        ⟨[], 20000000⟩, ["1.mp4"], 1, 1,
        [RemoteCall.uploadObject "1.mp4", RemoteCall.deleteEvent "e1"]⟩
    ∧ (⟨fun e => e.id == "e1", fun _ => false, fun _ => true, fun _ => 1000000⟩ : Env).upload
        ⟨"e1", EventType.MOVEMENT, "1", false, EventVideoClipUploadStatus.Done⟩
      = false
    ∧ (⟨fun e => e.id == "e1", fun _ => false, fun _ => true, fun _ => 1000000⟩ : Env).download
        ⟨"e2", EventType.MOVEMENT, "22", false, EventVideoClipUploadStatus.Done⟩
      = false := by
  decide

/-- A map that fixes a list fixes each of its members. -/
theorem map_eq_self_mem {α : Type} (f : α → α) :
    ∀ (l : List α), l.map f = l → ∀ x ∈ l, f x = x
  | [] => by
    intro _ x hx
    simp at hx
  | a :: t => by
    intro h x hx
    rw [List.map_cons] at h
    injection h with h1 h2
    rcases List.mem_cons.mp hx with rfl | hx'
    · exact h1
    · exact map_eq_self_mem f t h2 x hx'

/-- Claim C7: a tick run against a snapshot that agrees with the store
whose execution leaves the remote world unchanged is repeatable with no
mutating calls: the re-run against the unchanged remote state and the
snapshot the first run handed over issues no mutating call on the Remote
Event Source or the Remote Object Store (the advisory audit write is
outside this model). -/
theorem tick_idempotent (parseTs : String → Int) (env : Env) (fuel : Nat)
    (remote : Remote) (videosOnDrive : List String) (res : TickResult)
    (hsync : ∀ n, n ∈ videosOnDrive ↔ n ∈ remote.drive.files.map (fun f => f.name))
    (hrun : tickRun parseTs env fuel remote videosOnDrive = some res)
    (hfix : res.remote = remote) :
    ∃ res2, tickRun parseTs env fuel res.remote res.videosOnDrive = some res2
      ∧ res2.calls = [] := by
  have hrun0 := hrun
  by_cases hnil : getEventsWithClipNotYetOnDrive parseTs remote.events videosOnDrive = []
  · have hie : (getEventsWithClipNotYetOnDrive parseTs remote.events
        videosOnDrive).isEmpty = true := by
      rw [hnil]
      rfl
    simp only [tickRun, hie, if_true] at hrun
    have hres : res = ⟨[], remote, remote.drive.files.map (fun f => f.name)⟩ :=
      (Option.some.inj hrun).symm
    have hcongr : getEventsWithClipNotYetOnDrive parseTs remote.events
        (remote.drive.files.map (fun f => f.name)) = [] := by
      rw [getEventsWithClipNotYetOnDrive_congr parseTs remote.events _ videosOnDrive
        (fun n => (hsync n).symm)]
      exact hnil
    refine ⟨⟨[], remote, remote.drive.files.map (fun f => f.name)⟩, ?_, rfl⟩
    rw [hres]
    simp only [tickRun]
    rw [show (getEventsWithClipNotYetOnDrive parseTs remote.events
        (remote.drive.files.map (fun f => f.name))).isEmpty = true from by rw [hcongr]; rfl]
    simp
  · have hie := isEmpty_eq_false_of_ne_nil _ hnil
    simp only [tickRun, hie, Bool.false_eq_true, if_false] at hrun
    split at hrun
    · -- archive branch: remote unchanged forces every download to fail
      rename_i r hact
      obtain ⟨rfl, -⟩ := handleClipsAction_archive_inv _ _ hact
      split at hrun
      · exact absurd hrun (by simp)
      · rename_i st harch
        have hres : res = ⟨st.calls, ⟨st.events, st.drive⟩, st.videosOnDrive⟩ :=
          (Option.some.inj hrun).symm
        have hrem : (⟨st.events, st.drive⟩ : Remote) = remote := by
          rw [hres] at hfix
          exact hfix
        have hst : st.events = remote.events := congrArg Remote.events hrem
        have hallfail : ∀ e ∈ (splitCameraEventByClipStatus
            (getEventsWithClipNotYetOnDrive parseTs remote.events videosOnDrive)).1,
            env.download e = false := by
          intro e he
          cases hde : env.download e with
          | false => rfl
          | true =>
            exfalso
            have hkill := arch_download_kills parseTs env fuel _ _ _ e he hde harch
            have hn : e ∈ getEventsWithClipNotYetOnDrive parseTs remote.events
                videosOnDrive := by
              rw [splitCameraEventByClipStatus_eq_filters] at he
              exact List.mem_of_mem_filter he
            have hmemev : e ∈ remote.events :=
              ((mem_getEventsWithClipNotYetOnDrive parseTs remote.events
                videosOnDrive e).mp hn).1
            exact hkill e (hst ▸ hmemev) rfl
        have harch2 := arch_all_fail parseTs env fuel
          (splitCameraEventByClipStatus
            (getEventsWithClipNotYetOnDrive parseTs remote.events videosOnDrive)).1
          ⟨remote.events, remote.drive, videosOnDrive, 0, 0, []⟩ hallfail
        have hsteq : st = ⟨remote.events, remote.drive, videosOnDrive, 0,
            0 + (splitCameraEventByClipStatus
              (getEventsWithClipNotYetOnDrive parseTs remote.events videosOnDrive)).1.length,
            []⟩ :=
          Option.some.inj (harch.symm.trans harch2)
        refine ⟨res, ?_, ?_⟩
        · have hvid : res.videosOnDrive = videosOnDrive := by rw [hres, hsteq]
          rw [hfix, hvid]
          exact hrun0
        · rw [hres, hsteq]
    · -- request branch: the remote necessarily changed, contradiction
      rename_i e hact
      obtain ⟨-, -, hlast⟩ := handleClipsAction_request_inv _ _ hact
      exfalso
      have hres : res = ⟨[RemoteCall.requestClip e.id],
          ⟨requestClipEffect remote.events e.id, remote.drive⟩, videosOnDrive⟩ :=
        (Option.some.inj hrun).symm
      have hrem : (⟨requestClipEffect remote.events e.id, remote.drive⟩ : Remote)
          = remote := by
        rw [hres] at hfix
        exact hfix
      have hev : requestClipEffect remote.events e.id = remote.events :=
        congrArg Remote.events hrem
      have hmemq := List.mem_of_getLast?_eq_some hlast
      have hstatus : e.videoClipUploadStatus = EventVideoClipUploadStatus.Local
          ∨ e.videoClipUploadStatus = EventVideoClipUploadStatus.Unavailable := by
        rw [splitCameraEventByClipStatus_eq_filters] at hmemq
        have := (List.mem_filter.mp hmemq).2
        simpa only [Bool.or_eq_true, beq_iff_eq] using this
      have hmemev : e ∈ remote.events := by
        rw [splitCameraEventByClipStatus_eq_filters] at hmemq
        have hn := List.mem_of_mem_filter hmemq
        exact ((mem_getEventsWithClipNotYetOnDrive parseTs remote.events
          videosOnDrive e).mp hn).1
      have hge := map_eq_self_mem _ remote.events hev e hmemev
      simp only [beq_self_eq_true, if_true] at hge
      have hpend := congrArg CameraEvent.videoClipUploadStatus hge
      rcases hstatus with h | h <;> rw [h] at hpend <;>
        exact EventVideoClipUploadStatus.noConfusion hpend
    · -- favorite branch: the remote necessarily changed, contradiction
      rename_i e hact
      obtain ⟨-, -, -, hfind⟩ := handleClipsAction_favorite_inv _ _ hact
      exfalso
      have hres : res = ⟨[RemoteCall.setFavorite e.id true],
          ⟨setFavoriteEffect remote.events e.id, remote.drive⟩, videosOnDrive⟩ :=
        (Option.some.inj hrun).symm
      have hrem : (⟨setFavoriteEffect remote.events e.id, remote.drive⟩ : Remote)
          = remote := by
        rw [hres] at hfix
        exact hfix
      have hev : setFavoriteEffect remote.events e.id = remote.events :=
        congrArg Remote.events hrem
      have hnonfav := List.find?_some hfind
      simp only [Bool.not_eq_true'] at hnonfav
      have hmemev : e ∈ remote.events :=
        ((mem_getEventsWithClipNotYetOnDrive parseTs remote.events videosOnDrive e).mp
          (List.mem_of_find?_eq_some hfind)).1
      have hge := map_eq_self_mem _ remote.events hev e hmemev
      simp only [beq_self_eq_true, if_true] at hge
      have hfav := congrArg CameraEvent.isFavorite hge
      rw [hnonfav] at hfav
      exact Bool.noConfusion hfav
    · -- favoriteNone branch
      have hres : res = ⟨[], remote, videosOnDrive⟩ := (Option.some.inj hrun).symm
      refine ⟨res, ?_, ?_⟩
      · have hvid : res.videosOnDrive = videosOnDrive := by rw [hres]
        rw [hfix, hvid]
        exact hrun0
      · rw [hres]
    · -- backoff branch
      have hres : res = ⟨[], remote, videosOnDrive⟩ := (Option.some.inj hrun).symm
      refine ⟨res, ?_, ?_⟩
      · have hvid : res.videosOnDrive = videosOnDrive := by rw [hres]
        rw [hfix, hvid]
        exact hrun0
      · rw [hres]

/-- Witness for the idempotence claim: an empty remote world and an
agreeing empty snapshot; the tick is an idle re-listing and the re-run
issues no mutating call. -/
theorem tick_idempotent_witness :
    ∃ res2, tickRun (fun s => (s.length : Int))
        ⟨fun _ => true, fun _ => true, fun _ => true, fun _ => 1⟩ 1
        ⟨[], ⟨[], 1000⟩⟩ [] = some res2
      ∧ res2.calls = [] :=
  tick_idempotent (fun s => (s.length : Int))
    ⟨fun _ => true, fun _ => true, fun _ => true, fun _ => 1⟩ 1
    ⟨[], ⟨[], 1000⟩⟩ [] ⟨[], ⟨[], ⟨[], 1000⟩⟩, []⟩
    (by simp) (by decide) (by decide)

end CameraOnDrive
